import Mathlib

/-!
Shallow embedding, in Lean 4, of the training utilities of
`modules/tf_helper/tf_utils.py` and of the configuration prelude of the
model factory `training/models.py` from the repository
`reproducing-comparing-rewinding-and-finetuning`.

Tensors are modelled as lists of integers together with an explicit shape;
a Keras model is modelled by its list of named weight variables, which is
what the embedded utility functions read and write.  Python exceptions are
modelled with an explicit error type `PyErr` and `Except`; functions that
print warnings return the list of warning records they emit.  Fresh weight
initialisation performed by the framework (`tf.keras.models.clone_model`)
is nondeterministic, so the freshly initialised clone is passed explicitly
as an argument constrained to share the architecture of its origin.
-/

/-- Python exception kinds raised or caught by the embedded code:
`NameError`, `NotImplementedError`, `AssertionError`, `ValueError`. -/
inductive PyErr where
  | nameError (msg : String)
  | notImplementedError (msg : String)
  | assertionError
  | valueError (msg : String)
deriving Repr, DecidableEq

/-- Test `listStartsWith p l` holds when `p` is an initial segment of `l`. -/
def listStartsWith : List Char → List Char → Bool
  | [], _ => true
  | _ :: _, [] => false
  | p :: ps, c :: cs => p = c && listStartsWith ps cs

/-- Test `listContainsSub pat l` holds when `pat` occurs contiguously in `l`. -/
def listContainsSub (pat : List Char) : List Char → Bool
  | [] => pat.isEmpty
  | l@(_ :: rest) => listStartsWith pat l || listContainsSub pat rest

/-- Python's substring test `pat in s` on strings. -/
def strContains (s pat : String) : Bool :=
  listContainsSub pat.toList s.toList

/-- One weight variable of a Keras model: its name, its shape, and its
current tensor of values (flattened). -/
structure Weight where
  name : String
  shape : List Nat
  value : List Int
deriving Repr, DecidableEq

/-- The shapes of a model's weight list. -/
def shapesOf (m : List Weight) : List (List Nat) := m.map Weight.shape

/-- The values of a model's weight list. -/
def valuesOf (m : List Weight) : List (List Int) := m.map Weight.value

/-- A warning printed by `set_all_weights_from_model` when a weight pair
is skipped: `WARNING: Skipping {w1.name}: {w1.shape} != {w2.shape}`. -/
structure SkipWarning where
  name : String
  shape1 : List Nat
  shape2 : List Nat
deriving Repr, DecidableEq

/-- Embeds `tf_utils.set_all_weights_from_model(model, source_model)`:
iterates over `zip(model.weights, source_model.weights)`; assigns
`w1 := w2` when shapes agree and otherwise prints a warning and skips the
pair.  Returns the mutated destination weight list together with the
warnings printed, in order. -/
def set_all_weights_from_model : List Weight → List Weight → List Weight × List SkipWarning
  | ws, [] => (ws, [])
  | [], _ :: _ => ([], [])
  | w1 :: ws, w2 :: ss =>
    let r := set_all_weights_from_model ws ss
    if w1.shape = w2.shape then
      ({ w1 with value := w2.value } :: r.1, r.2)
    else
      (w1 :: r.1, { name := w1.name, shape1 := w1.shape, shape2 := w2.shape } :: r.2)

/-- Embeds `tf_utils.clone_model(model)`: `tf.keras.models.clone_model` builds a
fresh architecture copy with freshly initialised weights (passed here as
`fresh`, nondeterministic in the framework), then
`set_all_weights_from_model(new_model, model)` copies the weights over.
Returns the new model and the warnings printed. -/
def clone_model (model fresh : List Weight) : List Weight × List SkipWarning :=
  set_all_weights_from_model fresh model

/-- Python truthiness test `skip_keyword and skip_keyword in w1.name`:
`None` and the empty string are falsy. -/
def skipTruthy : Option String → String → Bool
  | none, _ => false
  | some kw, name => (kw != "") && strContains name kw

/-- Embeds `temp.load_weights(ckp)`: loading a stored checkpoint into the cloned
model replaces each variable's stored tensor (and shape) with the
checkpoint's, keeping the variable's name. -/
def load_weights (temp ckpW : List Weight) : List Weight :=
  List.zipWith (fun t c => { name := t.name, shape := c.shape, value := c.value }) temp ckpW

/-- The `for w1, w2 in zip(model.weights, temp.weights)` loop of
`reset_weights_to_checkpoint`: a pair whose destination name contains the
(truthy) skip keyword is counted and left unchanged; every other pair is
assigned `w1 := w2`.  Weights beyond the shorter list are untouched. -/
def reset_loop : List Weight → List Weight → Option String → List Weight × Nat
  | ws, [], _ => (ws, 0)
  | [], _ :: _, _ => ([], 0)
  | w1 :: ws, w2 :: ts, skip =>
    let r := reset_loop ws ts skip
    if skipTruthy skip w1.name then
      (w1 :: r.1, r.2 + 1)
    else
      ({ name := w1.name, shape := w2.shape, value := w2.value } :: r.1, r.2)

/-- Embeds `tf_utils.reset_weights_to_checkpoint(model, ckp, skip_keyword)`:
clones the model (fresh initialisation `fresh`), loads the checkpoint into
the clone when a checkpoint path is given, then assigns the clone's
weights back into `model`, skipping weights whose name contains the
keyword.  Returns the mutated model and the skipped count. -/
def reset_weights_to_checkpoint (model fresh : List Weight)
    (ckp : Option (List Weight)) (skip_keyword : Option String) :
    List Weight × Nat :=
  let temp := match ckp with
    | some c => load_weights fresh c
    | none => fresh
  reset_loop model temp skip_keyword

/-- Embeds `tf.clip_by_value(t, clip_value_min, clip_value_max)`: elementwise
`maximum(minimum(t, clip_value_max), clip_value_min)`. -/
def clip_by_value (t : List Int) (lo hi : Int) : List Int :=
  t.map (fun x => max (min x hi) lo)

/-- Result of a call to `clip_many`: the state of the argument tensors
after the call, and the returned value (`none` models Python's implicit
`None` return in the in-place branch). -/
structure ClipResult where
  values : List (List Int)
  ret : Option (List (List Int))
deriving Repr, DecidableEq

/-- Embeds `tf_utils.clip_many(values, clip_at, clip_from=None, inplace=False)`:
when `clip_from` is `None` it defaults to `-clip_at`; in-place mode
assigns each tensor its clipped value and returns `None`, otherwise a new
list of clipped tensors is returned and the inputs are untouched. -/
def clip_many (values : List (List Int)) (clip_at : Int)
    (clip_from : Option Int) (inplace : Bool) : ClipResult :=
  let lo := clip_from.getD (-clip_at)
  if inplace then
    { values := values.map (fun v => clip_by_value v lo clip_at), ret := none }
  else
    { values := values, ret := some (values.map (fun v => clip_by_value v lo clip_at)) }

/-- One slot array of an optimizer's internal state: shape and values. -/
structure OptArr where
  shape : List Nat
  data : List Int
deriving Repr, DecidableEq

/-- Embeds `optimizer.set_weights(weights)` of Keras: raises `ValueError` when
the provided list's length differs from the optimizer's current weight
list (in particular when the optimizer was never built and its state is
empty), or when some pair of corresponding arrays disagrees in shape;
otherwise the new weights replace the state. -/
def optimizer_set_weights (current new : List OptArr) : Except PyErr (List OptArr) :=
  if current.length ≠ new.length then
    .error (.valueError "weight list length mismatch")
  else if (current.zip new).all (fun p => p.1.shape == p.2.shape) then
    .ok new
  else
    .error (.valueError "weight shape mismatch")

/-- Embeds `tf_utils.update_optimizer(optimizer, path)`: the state list `loaded`
was unpickled from `path`; `optimizer.set_weights(loaded)` is attempted,
and a `ValueError` is caught and turned into warning prints, leaving the
optimizer untouched.  Any other exception would propagate.  Returns the
optimizer's state after the call and the printed warnings. -/
def update_optimizer (optimizer loaded : List OptArr) :
    Except PyErr (List OptArr × List String) :=
  match optimizer_set_weights optimizer loaded with
  | .ok st => .ok (st, [])
  | .error (.valueError m) =>
    .ok (optimizer, ["!!!WARNING!!! Tried to load empty optimizer!", m])
  | .error e => .error e

/-- Embeds `tf_utils.set_precision(precision)`: selects the mixed-precision
policy name for 16, 32 or 64 and sets it; any other value raises
`NameError` before any policy is set.  The returned string is the policy
that was set. -/
def set_precision (precision : Int) : Except PyErr String :=
  if precision = 16 then .ok "mixed_float16"
  else if precision = 32 then .ok "float32"
  else if precision = 64 then .ok "float64"
  else .error (.nameError ("Available precision: 16, 32, 64. Not " ++ toString precision ++ "!"))

/-- A loss function produced by `get_loss_fn_from_alias`. -/
inductive LossFn where
  | sparseCategoricalCrossentropy (from_logits : Bool)
deriving Repr, DecidableEq

/-- Embeds `tf_utils.get_loss_fn_from_alias(alias)`: only the alias
`crossentropy` is implemented; every other alias raises
`NotImplementedError`. -/
def get_loss_fn_from_alias (lossAlias : String) : Except PyErr LossFn :=
  if lossAlias = "crossentropy" then .ok (.sparseCategoricalCrossentropy true)
  else .error (.notImplementedError ("Unknown alias " ++ lossAlias))

/-- The classifier head's class-count argument of `models.ResNetStiff`:
either a single class count or an ordered sequence of class counts (the
multi-head version). -/
inductive NClasses where
  | single (n : Nat)
  | multi (ns : List Nat)
deriving Repr, DecidableEq

/-- The resolved configuration from which `models.ResNetStiff` assembles
its layer graph: the layer assembly itself delegates every computation to
framework layer primitives and is abstracted here to the configuration
that drives it. -/
structure ResNetConfig where
  input_shape : List Nat
  n_classes : NClasses
deriving Repr, DecidableEq

/-- Embeds `models.ResNetStiff(dataset, ..., input_shape, n_classes, ...)`,
lines 63--74: a recognized dataset name (`cifar`, `cifar10`, `cifar100`,
`mnist`) overrides `input_shape` and `n_classes`; otherwise
`assert input_shape is not None` and `assert n_classes is not None` run,
in that order, before any layer is built.  On success the model is built
from the resolved configuration. -/
def ResNetStiff (dataset : Option String) (input_shape : Option (List Nat))
    (n_classes : Option NClasses) : Except PyErr ResNetConfig :=
  if dataset = some "cifar" ∨ dataset = some "cifar10" then
    .ok { input_shape := [32, 32, 3], n_classes := .single 10 }
  else if dataset = some "cifar100" then
    .ok { input_shape := [32, 32, 3], n_classes := .single 100 }
  else if dataset = some "mnist" then
    .ok { input_shape := [28, 28, 1], n_classes := .single 10 }
  else
    match input_shape, n_classes with
    | none, _ => .error .assertionError
    | some _, none => .error .assertionError
    | some s, some n => .ok { input_shape := s, n_classes := n }

/-- A save performed by the checkpoint callback, tagged with the epoch
key that triggered it: `save_model(self.model, path)` or
`save_optimizer(self.model.optimizer, path)`. -/
inductive SaveEvent where
  | save_model (epoch : Nat) (path : String)
  | save_optimizer (epoch : Nat) (path : String)
deriving Repr, DecidableEq

/-- The state of a `tf_utils.CheckpointAfterEpoch` callback: the two
epoch-to-path dictionaries fixed at construction and the lists of created
checkpoint paths. -/
structure CheckpointAfterEpoch where
  epoch2path : Nat → Option String
  epoch2path_optim : Nat → Option String
  created_model_ckp : List String
  created_optim_ckp : List String

/-- Embeds `CheckpointAfterEpoch.on_epoch_end(epoch)`: with
`next_epoch = epoch + 1`, saves the model when `next_epoch` is a key of
`epoch2path` and the optimizer when it is a key of `epoch2path_optim`,
recording each created path.  Returns the new callback state and the save
events performed, in order. -/
def on_epoch_end (cb : CheckpointAfterEpoch) (epoch : Nat) :
    CheckpointAfterEpoch × List SaveEvent :=
  let next_epoch := epoch + 1
  let step1 : CheckpointAfterEpoch × List SaveEvent :=
    match cb.epoch2path next_epoch with
    | some path =>
      ({ cb with created_model_ckp := cb.created_model_ckp ++ [path] },
       [.save_model next_epoch path])
    | none => (cb, [])
  match step1.1.epoch2path_optim next_epoch with
  | some path =>
    ({ step1.1 with created_optim_ckp := step1.1.created_optim_ckp ++ [path] },
     step1.2 ++ [.save_optimizer next_epoch path])
  | none => step1

/-- A training run of `E` epochs: Keras invokes `on_epoch_end` with the
epoch indices `0, 1, ..., E-1` in order.  Returns the final callback
state and all save events performed, in order. -/
def run_epochs (cb : CheckpointAfterEpoch) : Nat → CheckpointAfterEpoch × List SaveEvent
  | 0 => (cb, [])
  | e + 1 =>
    let r := run_epochs cb e
    let s := on_epoch_end r.1 e
    (s.1, r.2 ++ s.2)

/-- How many times a model save was triggered by the epoch key `k`. -/
def countModelSaves (evs : List SaveEvent) (k : Nat) : Nat :=
  (evs.filter (fun ev => match ev with
    | .save_model e _ => e == k
    | _ => false)).length

/-- How many times an optimizer save was triggered by the epoch key `k`. -/
def countOptimSaves (evs : List SaveEvent) (k : Nat) : Nat :=
  (evs.filter (fun ev => match ev with
    | .save_optimizer e _ => e == k
    | _ => false)).length

/-- The save events `on_epoch_end` performs at a given epoch, as a
function of the two dictionaries only (they never change). -/
def eventsAt (m mo : Nat → Option String) (epoch : Nat) : List SaveEvent :=
  (match m (epoch + 1) with
    | some path => [SaveEvent.save_model (epoch + 1) path]
    | none => []) ++
  (match mo (epoch + 1) with
    | some path => [SaveEvent.save_optimizer (epoch + 1) path]
    | none => [])

/-! ## Helper lemmas -/

theorem reset_loop_length : ∀ (ws ts : List Weight) (sk : Option String),
    (reset_loop ws ts sk).1.length = ws.length
  | _, [], _ => by simp [reset_loop]
  | [], _ :: _, _ => by simp [reset_loop]
  | w1 :: ws, w2 :: ts, sk => by
    have ih := reset_loop_length ws ts sk
    simp only [reset_loop]
    split <;> simp [ih]

theorem reset_loop_getElem : ∀ (ws ts : List Weight) (sk : Option String) (i : Nat)
    (w t : Weight), ws[i]? = some w → ts[i]? = some t →
    (reset_loop ws ts sk).1[i]? =
      some (if skipTruthy sk w.name then w
            else { name := w.name, shape := t.shape, value := t.value })
  | [], _, _, i, w, t => by intro h _; simp at h
  | _ :: _, [], _, i, w, t => by intro _ h; simp at h
  | w1 :: ws, w2 :: ts, sk, 0, w, t => by
    intro hw ht
    simp only [List.getElem?_cons_zero, Option.some.injEq] at hw ht
    subst hw; subst ht
    simp only [reset_loop]
    split <;> simp_all
  | w1 :: ws, w2 :: ts, sk, i + 1, w, t => by
    intro hw ht
    simp only [List.getElem?_cons_succ] at hw ht
    have ih := reset_loop_getElem ws ts sk i w t hw ht
    simp only [reset_loop]
    split <;> simp [ih]

theorem reset_loop_count : ∀ (ws ts : List Weight) (sk : Option String),
    ts.length = ws.length →
    (reset_loop ws ts sk).2 = (ws.filter (fun w => skipTruthy sk w.name)).length
  | ws, [], sk => by
    intro h
    have : ws = [] := List.length_eq_zero.mp h.symm
    subst this
    simp [reset_loop]
  | [], _ :: _, sk => by intro h; simp at h
  | w1 :: ws, w2 :: ts, sk => by
    intro h
    simp only [List.length_cons] at h
    have ih := reset_loop_count ws ts sk (by omega)
    simp only [reset_loop, List.filter_cons]
    split <;> rename_i hcond <;> simp [hcond, ih]

theorem load_weights_getElem : ∀ (temp cks : List Weight) (i : Nat) (t ck : Weight),
    temp[i]? = some t → cks[i]? = some ck →
    (load_weights temp cks)[i]? =
      some { name := t.name, shape := ck.shape, value := ck.value }
  | [], _, i, t, ck => by intro h _; simp at h
  | _ :: _, [], i, t, ck => by intro _ h; simp at h
  | x :: xs, y :: ys, 0, t, ck => by
    intro ht hc
    simp only [List.getElem?_cons_zero, Option.some.injEq] at ht hc
    subst ht; subst hc
    simp [load_weights]
  | x :: xs, y :: ys, i + 1, t, ck => by
    intro ht hc
    simp only [List.getElem?_cons_succ] at ht hc
    have ih := load_weights_getElem xs ys i t ck ht hc
    simpa [load_weights] using ih

theorem load_weights_length (temp cks : List Weight) :
    (load_weights temp cks).length = min temp.length cks.length := by
  simp [load_weights]

/-! ## C2 -- reset_weights_to_checkpoint restores, skips and counts -/

/-- C2 (corrected: the skip substring must be nonempty, since Python's
`skip_keyword and skip_keyword in w1.name` treats the empty string as
falsy).  For every model, loaded checkpoint of matching layout and
nonempty skip substring, `reset_weights_to_checkpoint` keeps every weight
whose name contains the substring, overwrites every other weight with the
checkpoint's tensor, keeps the weight count, and returns the number of
skipped weights. -/
theorem reset_restores_skips_counts (model fresh ckpW : List Weight) (kw : String)
    (hkw : kw ≠ "") (hf : fresh.length = model.length) (hc : ckpW.length = model.length) :
    (reset_weights_to_checkpoint model fresh (some ckpW) (some kw)).1.length = model.length ∧
    (reset_weights_to_checkpoint model fresh (some ckpW) (some kw)).2 =
      (model.filter (fun w => strContains w.name kw)).length ∧
    (∀ (i : Nat) (w ck : Weight), model[i]? = some w → ckpW[i]? = some ck →
      (strContains w.name kw = true →
        (reset_weights_to_checkpoint model fresh (some ckpW) (some kw)).1[i]? = some w) ∧
      (strContains w.name kw = false →
        (reset_weights_to_checkpoint model fresh (some ckpW) (some kw)).1[i]? =
          some { name := w.name, shape := ck.shape, value := ck.value })) := by
  have hkwb : (kw != "") = true := by simp [hkw]
  have hlen : (load_weights fresh ckpW).length = model.length := by
    rw [load_weights_length, hf, hc]; omega
  refine ⟨?_, ?_, ?_⟩
  · simp only [reset_weights_to_checkpoint]
    exact reset_loop_length _ _ _
  · simp only [reset_weights_to_checkpoint]
    rw [reset_loop_count _ _ _ hlen]
    have : (fun w : Weight => skipTruthy (some kw) w.name) =
        (fun w : Weight => strContains w.name kw) := by
      funext w; simp [skipTruthy, hkwb]
    rw [this]
  · intro i w ck hw hck
    have hi : i < model.length := by
      by_contra hlt
      rw [List.getElem?_eq_none (by omega)] at hw
      exact Option.noConfusion hw
    have hif : i < fresh.length := by omega
    have hfr := List.getElem?_eq_getElem hif
    have htemp := load_weights_getElem fresh ckpW i _ ck hfr hck
    have hget := reset_loop_getElem model (load_weights fresh ckpW) (some kw) i w _ hw htemp
    constructor
    · intro hcontains
      rw [reset_weights_to_checkpoint, hget, if_pos (by simp [skipTruthy, hkwb, hcontains])]
    · intro hcontains
      rw [reset_weights_to_checkpoint, hget, if_neg (by simp [skipTruthy, hkwb, hcontains])]

/-- Witness for `reset_restores_skips_counts` at a two-weight model with
skip substring "bias". -/
theorem reset_restores_skips_counts_witness :
    (reset_weights_to_checkpoint
        [⟨"kernel", [1], [5]⟩, ⟨"bias", [1], [3]⟩]
        [⟨"kernel", [1], [0]⟩, ⟨"bias", [1], [0]⟩]
        (some [⟨"kernel", [1], [7]⟩, ⟨"bias", [1], [8]⟩]) (some "bias")).2 =
      (([⟨"kernel", [1], [5]⟩, ⟨"bias", [1], [3]⟩] : List Weight).filter
        (fun w => strContains w.name "bias")).length :=
  (reset_restores_skips_counts
    [⟨"kernel", [1], [5]⟩, ⟨"bias", [1], [3]⟩]
    [⟨"kernel", [1], [0]⟩, ⟨"bias", [1], [0]⟩]
    [⟨"kernel", [1], [7]⟩, ⟨"bias", [1], [8]⟩] "bias"
    (by decide) (by decide) (by decide)).2.1

/-- Counterexample to C2 as stated: with the empty skip substring, the
single weight's name does contain the substring, yet the weight is
overwritten with the checkpoint value and the returned skip count is 0,
because Python treats the empty keyword as falsy. -/
theorem reset_empty_keyword_cx :
    strContains "w" "" = true ∧
    reset_weights_to_checkpoint [⟨"w", [1], [5]⟩] [⟨"w", [1], [0]⟩]
        (some [⟨"w", [1], [7]⟩]) (some "") =
      ([⟨"w", [1], [7]⟩], 0) := by decide

/-! ## C8 -- reset with no checkpoint path uses the fresh clone -/

/-- C8: when `ckp` is `None`, the loaded-checkpoint step is skipped and
the temp model is the freshly initialised clone, so every non-skipped
weight is overwritten with the clone's fresh tensor, while skipped weights
are left unchanged. -/
theorem reset_none_overwrites_with_fresh (model fresh : List Weight)
    (sk : Option String) (i : Nat) (w f : Weight)
    (hw : model[i]? = some w) (hf : fresh[i]? = some f) :
    (skipTruthy sk w.name = false →
      (reset_weights_to_checkpoint model fresh none sk).1[i]? =
        some { name := w.name, shape := f.shape, value := f.value }) ∧
    (skipTruthy sk w.name = true →
      (reset_weights_to_checkpoint model fresh none sk).1[i]? = some w) := by
  have hget := reset_loop_getElem model fresh sk i w f hw hf
  constructor
  · intro hskip
    rw [reset_weights_to_checkpoint, hget, if_neg (by simp [hskip])]
  · intro hskip
    rw [reset_weights_to_checkpoint, hget, if_pos hskip]

/-- Witness for `reset_none_overwrites_with_fresh`: with no checkpoint,
a weight holding 5 is overwritten with the clone's fresh 0. -/
theorem reset_none_overwrites_with_fresh_witness :
    (reset_weights_to_checkpoint [⟨"w", [1], [5]⟩] [⟨"w", [1], [0]⟩] none none).1[0]? =
      some { name := "w", shape := [1], value := [0] } :=
  (reset_none_overwrites_with_fresh [⟨"w", [1], [5]⟩] [⟨"w", [1], [0]⟩] none 0
    ⟨"w", [1], [5]⟩ ⟨"w", [1], [0]⟩ (by decide) (by decide)).1 (by decide)

/-! ## C9 -- set_all_weights_from_model pairs only up to the shorter list -/

theorem set_all_extent : ∀ (dest src : List Weight),
    (set_all_weights_from_model dest src).1 =
      (set_all_weights_from_model (dest.take src.length) src).1 ++ dest.drop src.length ∧
    (set_all_weights_from_model dest src).2 =
      (set_all_weights_from_model (dest.take src.length) src).2 ∧
    set_all_weights_from_model dest src = set_all_weights_from_model dest (src.take dest.length)
  | ws, [] => by simp [set_all_weights_from_model]
  | [], s :: ss => by simp [set_all_weights_from_model]
  | w1 :: ws, w2 :: ss => by
    obtain ⟨ih1, ih2, ih3⟩ := set_all_extent ws ss
    refine ⟨?_, ?_, ?_⟩
    · by_cases h : w1.shape = w2.shape <;>
        simp [set_all_weights_from_model, h, ih1]
    · by_cases h : w1.shape = w2.shape <;>
        simp [set_all_weights_from_model, h, ih2]
    · by_cases h : w1.shape = w2.shape <;>
        simp [set_all_weights_from_model, h, ih3]

/-- C9: the `zip` in `set_all_weights_from_model` considers only pairs up
to the shorter weight list: the destination's excess weights are appended
unchanged, the warnings are exactly those of the common prefix, and the
source's excess weights have no effect at all (the source is never
written to).  In particular no warning is emitted for any excess
weight. -/
theorem set_all_weights_zip_extent (dest src : List Weight) :
    (set_all_weights_from_model dest src).1 =
      (set_all_weights_from_model (dest.take src.length) src).1 ++ dest.drop src.length ∧
    (set_all_weights_from_model dest src).2 =
      (set_all_weights_from_model (dest.take src.length) src).2 ∧
    set_all_weights_from_model dest src = set_all_weights_from_model dest (src.take dest.length) :=
  set_all_extent dest src

/-! ## C3 -- cloning twice preserves the original weights -/

theorem set_all_match_values : ∀ (dest src : List Weight),
    shapesOf dest = shapesOf src →
    valuesOf (set_all_weights_from_model dest src).1 = valuesOf src ∧
    shapesOf (set_all_weights_from_model dest src).1 = shapesOf dest
  | [], [] => by intro _; simp [set_all_weights_from_model, valuesOf, shapesOf]
  | [], _ :: _ => by intro h; simp [shapesOf] at h
  | _ :: _, [] => by intro h; simp [shapesOf] at h
  | d :: ds, s :: ss => by
    intro h
    simp only [shapesOf, List.map_cons, List.cons.injEq] at h
    obtain ⟨h1, h2⟩ := h
    have ih := set_all_match_values ds ss (by simpa [shapesOf] using h2)
    have ihv : List.map Weight.value (set_all_weights_from_model ds ss).1 =
        List.map Weight.value ss := by simpa [valuesOf] using ih.1
    have ihs : List.map Weight.shape (set_all_weights_from_model ds ss).1 =
        List.map Weight.shape ds := by simpa [shapesOf] using ih.2
    simp [set_all_weights_from_model, h1, valuesOf, shapesOf, ihv, ihs]

theorem set_all_getElem : ∀ (dest src : List Weight) (i : Nat) (w1 w2 : Weight),
    dest[i]? = some w1 → src[i]? = some w2 →
    (w1.shape = w2.shape →
      (set_all_weights_from_model dest src).1[i]? = some { w1 with value := w2.value }) ∧
    (w1.shape ≠ w2.shape →
      (set_all_weights_from_model dest src).1[i]? = some w1 ∧
      ({ name := w1.name, shape1 := w1.shape, shape2 := w2.shape } : SkipWarning) ∈
        (set_all_weights_from_model dest src).2)
  | [], _, i, w1, w2 => by intro h _; simp at h
  | _ :: _, [], i, w1, w2 => by intro _ h; simp at h
  | d :: ds, s :: ss, 0, w1, w2 => by
    intro hw1 hw2
    simp only [List.getElem?_cons_zero, Option.some.injEq] at hw1 hw2
    subst hw1; subst hw2
    constructor
    · intro hsh; simp [set_all_weights_from_model, hsh]
    · intro hsh; simp [set_all_weights_from_model, hsh]
  | d :: ds, s :: ss, i + 1, w1, w2 => by
    intro hw1 hw2
    simp only [List.getElem?_cons_succ] at hw1 hw2
    have ih := set_all_getElem ds ss i w1 w2 hw1 hw2
    constructor
    · intro hsh
      have he := ih.1 hsh
      by_cases h : d.shape = s.shape <;> simp [set_all_weights_from_model, h, he]
    · intro hsh
      obtain ⟨e1, e2⟩ := ih.2 hsh
      by_cases h : d.shape = s.shape <;>
        simp [set_all_weights_from_model, h, e1, e2, List.mem_cons]

/-- C3: cloning a model and then cloning the clone yields the original
weight values, provided the framework's architecture copies have the
original's shapes (which `tf.keras.models.clone_model` guarantees); and
each clone's weight copy (`set_all_weights_from_model`) copies every
matching-shape pair and skips, with a warning, every pair whose shapes
differ. -/
theorem clone_clone_preserves_values (m f1 f2 : List Weight)
    (h1 : shapesOf f1 = shapesOf m)
    (h2 : shapesOf f2 = shapesOf (clone_model m f1).1) :
    valuesOf (clone_model (clone_model m f1).1 f2).1 = valuesOf m ∧
    (∀ (dest src : List Weight) (i : Nat) (w1 w2 : Weight),
      dest[i]? = some w1 → src[i]? = some w2 →
      (w1.shape = w2.shape →
        (set_all_weights_from_model dest src).1[i]? = some { w1 with value := w2.value }) ∧
      (w1.shape ≠ w2.shape →
        (set_all_weights_from_model dest src).1[i]? = some w1 ∧
        ({ name := w1.name, shape1 := w1.shape, shape2 := w2.shape } : SkipWarning) ∈
          (set_all_weights_from_model dest src).2)) := by
  constructor
  · have c1 := set_all_match_values f1 m h1
    have c2 := set_all_match_values f2 (clone_model m f1).1 h2
    exact c2.1.trans c1.1
  · intro dest src i w1 w2 hw1 hw2
    exact set_all_getElem dest src i w1 w2 hw1 hw2

/-- Witness for `clone_clone_preserves_values`: a one-weight model cloned
twice keeps its values. -/
theorem clone_clone_preserves_values_witness :
    valuesOf (clone_model (clone_model [⟨"a", [2], [1, 2]⟩] [⟨"a_c", [2], [0, 0]⟩]).1
        [⟨"a_cc", [2], [9, 9]⟩]).1 = valuesOf [⟨"a", [2], [1, 2]⟩] :=
  (clone_clone_preserves_values [⟨"a", [2], [1, 2]⟩] [⟨"a_c", [2], [0, 0]⟩]
    [⟨"a_cc", [2], [9, 9]⟩] (by decide) (by decide)).1

/-! ## C4 -- clipping bounds the entries and is idempotent -/

theorem clip_by_value_mem_bounds (t : List Int) (lo hi : Int) (h : lo ≤ hi) :
    ∀ x ∈ clip_by_value t lo hi, lo ≤ x ∧ x ≤ hi := by
  intro x hx
  simp only [clip_by_value, List.mem_map] at hx
  obtain ⟨y, -, rfl⟩ := hx
  exact ⟨le_max_right _ _, max_le (min_le_right _ _) h⟩

theorem clip_by_value_idem (t : List Int) (lo hi : Int) (h : lo ≤ hi) :
    clip_by_value (clip_by_value t lo hi) lo hi = clip_by_value t lo hi := by
  simp only [clip_by_value, List.map_map]
  apply List.map_congr_left
  intro x _
  have h1 : max (min x hi) lo ≤ hi := max_le (min_le_right _ _) h
  have h2 : lo ≤ max (min x hi) lo := le_max_right _ _
  simp only [Function.comp]
  rw [min_eq_left h1, max_eq_left h2]

/-- C4: with explicit bounds `lo ≤ hi`, `clip_many` bounds every entry of
every tensor into `[lo, hi]` (in the returned list in value mode, and in
the mutated tensors in in-place mode), and applying `clip_many` twice
with the same bounds equals applying it once, in both modes. -/
theorem clip_many_bounds_idem (values : List (List Int)) (lo hi : Int) (h : lo ≤ hi) :
    (∀ t ∈ ((clip_many values hi (some lo) false).ret.getD []), ∀ x ∈ t, lo ≤ x ∧ x ≤ hi) ∧
    (∀ t ∈ (clip_many values hi (some lo) true).values, ∀ x ∈ t, lo ≤ x ∧ x ≤ hi) ∧
    (clip_many (clip_many values hi (some lo) true).values hi (some lo) true).values =
      (clip_many values hi (some lo) true).values ∧
    (clip_many ((clip_many values hi (some lo) false).ret.getD []) hi (some lo) false).ret =
      (clip_many values hi (some lo) false).ret := by
  refine ⟨?_, ?_, ?_, ?_⟩
  · intro t ht x hx
    have ht2 : t ∈ List.map (fun v => clip_by_value v lo hi) values := ht
    obtain ⟨v, -, rfl⟩ := List.mem_map.mp ht2
    exact clip_by_value_mem_bounds v lo hi h x hx
  · intro t ht x hx
    have ht2 : t ∈ List.map (fun v => clip_by_value v lo hi) values := ht
    obtain ⟨v, -, rfl⟩ := List.mem_map.mp ht2
    exact clip_by_value_mem_bounds v lo hi h x hx
  · show List.map (fun v => clip_by_value v lo hi)
        (List.map (fun v => clip_by_value v lo hi) values) =
      List.map (fun v => clip_by_value v lo hi) values
    rw [List.map_map]
    apply List.map_congr_left
    intro t _
    exact clip_by_value_idem t lo hi h
  · show some (List.map (fun v => clip_by_value v lo hi)
        (List.map (fun v => clip_by_value v lo hi) values)) =
      some (List.map (fun v => clip_by_value v lo hi) values)
    rw [List.map_map]
    congr 1
    apply List.map_congr_left
    intro t _
    exact clip_by_value_idem t lo hi h

/-- Witness for `clip_many_bounds_idem` at one tensor and bounds
`[-1, 3]`. -/
theorem clip_many_bounds_idem_witness :
    (clip_many ((clip_many [[-5, 0, 7]] 3 (some (-1)) false).ret.getD []) 3
        (some (-1)) false).ret = (clip_many [[-5, 0, 7]] 3 (some (-1)) false).ret :=
  (clip_many_bounds_idem [[-5, 0, 7]] (-1) 3 (by decide)).2.2.2

/-! ## C10 -- clip_many return and mutation discipline -/

/-- C10: with `inplace=False`, `clip_many` leaves the input tensors
untouched and returns a new list of the same length; with
`inplace=True` it returns `None`. -/
theorem clip_many_modes (values : List (List Int)) (clip_at : Int)
    (clip_from : Option Int) :
    (clip_many values clip_at clip_from false).values = values ∧
    (∃ r, (clip_many values clip_at clip_from false).ret = some r ∧
      r.length = values.length) ∧
    (clip_many values clip_at clip_from true).ret = none := by
  refine ⟨?_, ⟨?_, ?_, ?_⟩, ?_⟩
  · simp [clip_many]
  · exact values.map (fun v => clip_by_value v (clip_from.getD (-clip_at)) clip_at)
  · simp [clip_many]
  · simp
  · simp [clip_many]

/-! ## C5 -- rejected optimizer state only warns -/

theorem optimizer_set_weights_error_is_value_error (opt loaded : List OptArr)
    (e : PyErr) (he : optimizer_set_weights opt loaded = .error e) :
    ∃ m, e = .valueError m := by
  unfold optimizer_set_weights at he
  split_ifs at he <;> simp_all <;> exact ⟨_, he.symm⟩

/-- C5: whenever `optimizer.set_weights` rejects the deserialized state
(no prior state, or mismatched shapes -- both raise `ValueError`),
`update_optimizer` catches the exception, prints the warning banner, and
returns normally with the optimizer's state unchanged. -/
theorem update_optimizer_warns_keeps_state (opt loaded : List OptArr)
    (h : ∃ e, optimizer_set_weights opt loaded = .error e) :
    ∃ m, update_optimizer opt loaded =
      .ok (opt, ["!!!WARNING!!! Tried to load empty optimizer!", m]) := by
  obtain ⟨e, he⟩ := h
  obtain ⟨m, rfl⟩ := optimizer_set_weights_error_is_value_error opt loaded e he
  exact ⟨m, by simp [update_optimizer, he]⟩

/-- Witness for `update_optimizer_warns_keeps_state`: restoring a
nonempty pickled state into a never-built (empty) optimizer. -/
theorem update_optimizer_warns_keeps_state_witness :
    ∃ m, update_optimizer [] [⟨[1], [0]⟩] =
      .ok ([], ["!!!WARNING!!! Tried to load empty optimizer!", m]) :=
  update_optimizer_warns_keeps_state [] [⟨[1], [0]⟩]
    ⟨.valueError "weight list length mismatch", rfl⟩

/-! ## C6 -- missing shape or class count fails the assertion -/

/-- C6: called without a recognized dataset name and with `input_shape`
or `n_classes` absent, `ResNetStiff` fails with `AssertionError` before
building any model. -/
theorem resnetstiff_asserts_on_missing_config (ds : Option String)
    (ishape : Option (List Nat)) (ncls : Option NClasses)
    (h1 : ds ≠ some "cifar") (h2 : ds ≠ some "cifar10")
    (h3 : ds ≠ some "cifar100") (h4 : ds ≠ some "mnist")
    (h5 : ishape = none ∨ ncls = none) :
    ResNetStiff ds ishape ncls = .error .assertionError := by
  rcases h5 with h5 | h5
  · subst h5
    simp [ResNetStiff, h1, h2, h3, h4]
  · subst h5
    cases ishape <;> simp [ResNetStiff, h1, h2, h3, h4]

/-- Witness for `resnetstiff_asserts_on_missing_config`: no dataset name
and no explicit configuration. -/
theorem resnetstiff_asserts_on_missing_config_witness :
    ResNetStiff none none none = .error .assertionError :=
  resnetstiff_asserts_on_missing_config none none none
    (by decide) (by decide) (by decide) (by decide) (Or.inl rfl)

/-! ## C7 -- unknown precision and unknown loss alias fail fast -/

/-- C7: every precision other than 16, 32, 64 makes `set_precision` raise
`NameError` before any policy is set, and every loss alias other than
`crossentropy` makes `get_loss_fn_from_alias` raise
`NotImplementedError`. -/
theorem precision_and_loss_alias_fail_fast :
    (∀ p : Int, p ≠ 16 → p ≠ 32 → p ≠ 64 →
      set_precision p =
        .error (.nameError ("Available precision: 16, 32, 64. Not " ++ toString p ++ "!"))) ∧
    (∀ a : String, a ≠ "crossentropy" →
      get_loss_fn_from_alias a = .error (.notImplementedError ("Unknown alias " ++ a))) := by
  constructor
  · intro p h16 h32 h64
    simp [set_precision, h16, h32, h64]
  · intro a ha
    simp [get_loss_fn_from_alias, ha]

/-- Witness for `precision_and_loss_alias_fail_fast` at precision 20 and
alias "mse". -/
theorem precision_and_loss_alias_fail_fast_witness :
    set_precision 20 =
      .error (.nameError ("Available precision: 16, 32, 64. Not " ++ toString (20 : Int) ++ "!")) ∧
    get_loss_fn_from_alias "mse" =
      .error (.notImplementedError ("Unknown alias " ++ "mse")) :=
  ⟨precision_and_loss_alias_fail_fast.1 20 (by decide) (by decide) (by decide),
   precision_and_loss_alias_fail_fast.2 "mse" (by decide)⟩

/-! ## C1 -- checkpoint callback saves -/

theorem on_epoch_end_spec (cb : CheckpointAfterEpoch) (e : Nat) :
    (on_epoch_end cb e).2 = eventsAt cb.epoch2path cb.epoch2path_optim e ∧
    (on_epoch_end cb e).1.epoch2path = cb.epoch2path ∧
    (on_epoch_end cb e).1.epoch2path_optim = cb.epoch2path_optim := by
  unfold on_epoch_end eventsAt
  cases hm : cb.epoch2path (e + 1) <;> cases ho : cb.epoch2path_optim (e + 1) <;>
    simp [hm, ho]

theorem run_epochs_maps (cb : CheckpointAfterEpoch) (E : Nat) :
    (run_epochs cb E).1.epoch2path = cb.epoch2path ∧
    (run_epochs cb E).1.epoch2path_optim = cb.epoch2path_optim := by
  induction E with
  | zero => exact ⟨rfl, rfl⟩
  | succ E ih =>
    have hs := on_epoch_end_spec (run_epochs cb E).1 E
    exact ⟨by rw [run_epochs, hs.2.1, ih.1], by rw [run_epochs, hs.2.2, ih.2]⟩

theorem countModelSaves_append (a b : List SaveEvent) (k : Nat) :
    countModelSaves (a ++ b) k = countModelSaves a k + countModelSaves b k := by
  simp [countModelSaves, List.filter_append]

theorem countOptimSaves_append (a b : List SaveEvent) (k : Nat) :
    countOptimSaves (a ++ b) k = countOptimSaves a k + countOptimSaves b k := by
  simp [countOptimSaves, List.filter_append]

theorem countModelSaves_eventsAt (m mo : Nat → Option String) (e k : Nat) :
    countModelSaves (eventsAt m mo e) k =
      if e + 1 = k ∧ (m (e + 1)).isSome then 1 else 0 := by
  unfold eventsAt
  cases hm : m (e + 1) <;> cases ho : mo (e + 1) <;>
    by_cases hk : e + 1 = k <;>
      simp [countModelSaves, hk]

theorem countOptimSaves_eventsAt (m mo : Nat → Option String) (e k : Nat) :
    countOptimSaves (eventsAt m mo e) k =
      if e + 1 = k ∧ (mo (e + 1)).isSome then 1 else 0 := by
  unfold eventsAt
  cases hm : m (e + 1) <;> cases ho : mo (e + 1) <;>
    by_cases hk : e + 1 = k <;>
      simp [countOptimSaves, hk]

theorem run_epochs_count_model (cb : CheckpointAfterEpoch) (E k : Nat) :
    countModelSaves (run_epochs cb E).2 k =
      if 1 ≤ k ∧ k ≤ E ∧ (cb.epoch2path k).isSome then 1 else 0 := by
  induction E with
  | zero =>
    have hc : ¬(1 ≤ k ∧ k ≤ 0 ∧ (cb.epoch2path k).isSome = true) := by
      rintro ⟨a, b, -⟩; omega
    exact (if_neg hc).symm
  | succ E ih =>
    have hmaps := run_epochs_maps cb E
    have hsp := on_epoch_end_spec (run_epochs cb E).1 E
    rw [run_epochs, countModelSaves_append, ih, hsp.1, hmaps.1,
      countModelSaves_eventsAt]
    by_cases hk : E + 1 = k
    · subst hk
      by_cases hs : (cb.epoch2path (E + 1)).isSome = true
      · simp only [hs, and_true]
        split_ifs <;> omega
      · have hs0 : (cb.epoch2path (E + 1)).isSome = false := by
          revert hs; cases (cb.epoch2path (E + 1)).isSome <;> simp
        simp [hs0]
    · simp only [eq_false hk, false_and, if_false, add_zero]
      by_cases hs : (cb.epoch2path k).isSome = true
      · simp only [hs, and_true]
        split_ifs <;> omega
      · have hs0 : (cb.epoch2path k).isSome = false := by
          revert hs; cases (cb.epoch2path k).isSome <;> simp
        simp [hs0]

theorem run_epochs_count_optim (cb : CheckpointAfterEpoch) (E k : Nat) :
    countOptimSaves (run_epochs cb E).2 k =
      if 1 ≤ k ∧ k ≤ E ∧ (cb.epoch2path_optim k).isSome then 1 else 0 := by
  induction E with
  | zero =>
    have hc : ¬(1 ≤ k ∧ k ≤ 0 ∧ (cb.epoch2path_optim k).isSome = true) := by
      rintro ⟨a, b, -⟩; omega
    exact (if_neg hc).symm
  | succ E ih =>
    have hmaps := run_epochs_maps cb E
    have hsp := on_epoch_end_spec (run_epochs cb E).1 E
    rw [run_epochs, countOptimSaves_append, ih, hsp.1, hmaps.2,
      countOptimSaves_eventsAt]
    by_cases hk : E + 1 = k
    · subst hk
      by_cases hs : (cb.epoch2path_optim (E + 1)).isSome = true
      · simp only [hs, and_true]
        split_ifs <;> omega
      · have hs0 : (cb.epoch2path_optim (E + 1)).isSome = false := by
          revert hs; cases (cb.epoch2path_optim (E + 1)).isSome <;> simp
        simp [hs0]
    · simp only [eq_false hk, false_and, if_false, add_zero]
      by_cases hs : (cb.epoch2path_optim k).isSome = true
      · simp only [hs, and_true]
        split_ifs <;> omega
      · have hs0 : (cb.epoch2path_optim k).isSome = false := by
          revert hs; cases (cb.epoch2path_optim k).isSome <;> simp
        simp [hs0]

/-- C1 (corrected: only keys in `1..E` can trigger, since the hook fires
on `next_epoch = epoch + 1` for `epoch` in `0..E-1`).  Over a run of `E`
epochs, the callback saves the model (respectively the optimizer) exactly
once for every key of the corresponding mapping lying in `1..E`, and
performs no save for absent keys nor for present keys outside `1..E`. -/
theorem checkpoint_save_counts (cb : CheckpointAfterEpoch) (E k : Nat) :
    countModelSaves (run_epochs cb E).2 k =
      (if 1 ≤ k ∧ k ≤ E ∧ (cb.epoch2path k).isSome then 1 else 0) ∧
    countOptimSaves (run_epochs cb E).2 k =
      (if 1 ≤ k ∧ k ≤ E ∧ (cb.epoch2path_optim k).isSome then 1 else 0) :=
  ⟨run_epochs_count_model cb E k, run_epochs_count_optim cb E k⟩

/-- Counterexample to C1 as stated: the mapping holds the key 0 (with a
path), the hook runs for the single epoch index 0, yet no save is
performed for key 0, because `next_epoch = epoch + 1` is never 0. -/
theorem checkpoint_key_zero_cx :
    ¬ ((((CheckpointAfterEpoch.mk (fun k => if k == 0 then some "m.h5" else none)
            (fun _ => none) [] []).epoch2path 0).isSome = true) →
        countModelSaves (run_epochs (CheckpointAfterEpoch.mk
            (fun k => if k == 0 then some "m.h5" else none)
            (fun _ => none) [] []) 1).2 0 = 1) := by
  decide
